import Mathlib

/-
  Verification of the yt-dlp channel-mapping post-processor plugin
  (src/yt_dlp_plugins/postprocessor/channel_mapping.py).

  Shallow embedding: Python dicts that act as ordered key-value documents are
  modelled as association lists (insertion order = iteration order, keys
  unique); the host downloader state (params) is an explicit record; methods
  that can raise return Except; filesystem effects (os.makedirs, reading and
  writing config files) are modelled by explicit directory and file stores
  inside the state records.
-/

set_option autoImplicit false
set_option maxHeartbeats 1000000

namespace ChannelMapping

/-- A metadata value in the information dictionary (string, int or bool). -/
inductive MetaValue where
  | str (s : String)
  | int (n : Int)
  | bool (b : Bool)
  deriving DecidableEq, Repr

/-- The per-item metadata record (Python dict), as an ordered association list. -/
abbrev Info := List (String × MetaValue)

/-- First-match lookup in the information dictionary: models dict.get(k). -/
def infoLookup : Info → String → Option MetaValue
  | [], _ => none
  | (a, v) :: rest, k => if a = k then some v else infoLookup rest k

/-- Models dict.update with a single key: replace in place when the key is
present (keeping its position), otherwise append at the end. -/
def infoUpdate : Info → String → MetaValue → Info
  | [], k, v => [(k, v)]
  | (a, w) :: rest, k, v =>
    if a = k then (a, v) :: rest else (a, w) :: infoUpdate rest k v

/-- Models dict.pop(k, None): remove the entry with the given key when
present, otherwise leave the record unchanged. -/
def infoPop : Info → String → Info
  | [], _ => []
  | (a, v) :: rest, k => if a = k then rest else (a, v) :: infoPop rest k

/-- Python truthiness of an optional metadata value, as used by
information.get(k, False): absent and empty-string and zero are falsy. -/
def truthy : Option MetaValue → Bool
  | none => false
  | some (MetaValue.str s) => s ≠ ""
  | some (MetaValue.int n) => n ≠ 0
  | some (MetaValue.bool b) => b

/-- Models information.get(k, "") for a string-valued field. -/
def getStr (information : Info) (k : String) : String :=
  match infoLookup information k with
  | some (MetaValue.str s) => s
  | _ => ""

/-- Boolean test that pat occurs at the start of s (character lists). -/
def leadsWith : List Char → List Char → Bool
  | _, [] => true
  | [], _ :: _ => false
  | a :: s, b :: p => a == b && leadsWith s p

/-- Boolean substring containment on character lists: models the Python
expression pat in s. -/
def hasSub : List Char → List Char → Bool
  | [], p => p.isEmpty
  | a :: s, p => leadsWith (a :: s) p || hasSub s p

/-- One category entry of the mapping document: optional home and temp
directories and an ordered field sub-mapping
(field name to (original value to mapped value)). -/
structure CategoryEntry where
  home : Option String
  temp : Option String
  field : List (String × List (String × String))
  deriving DecidableEq, Repr

/-- The empty category dict returned by find_category on a miss. -/
def emptyCategory : CategoryEntry := ⟨none, none, []⟩

/-- The mapping document: ordered map from category name to category entry. -/
abbrev MappingDoc := List (String × CategoryEntry)

/-- Models field_data.get(original_channel, "") on an inner value mapping. -/
def lookupD : List (String × String) → String → String
  | [], _ => ""
  | (a, b) :: rest, k => if a = k then b else lookupD rest k

/-- The loop body of find_field over category_dict.get("field", {}).items(). -/
def findFieldGo (original_channel : String) :
    List (String × List (String × String)) → String × String
  | [] => ("", "")
  | (field, field_data) :: rest =>
    let new_field_name := lookupD field_data original_channel
    if new_field_name ≠ "" then (field, new_field_name)
    else findFieldGo original_channel rest

/-- Embeds find_field (channel_mapping.py lines 249-264): first field entry
whose inner mapping sends original_channel to a non-empty value. -/
def find_field (original_channel : String) (category_dict : CategoryEntry) :
    String × String :=
  findFieldGo original_channel category_dict.field

/-- Embeds find_category (channel_mapping.py lines 266-281): first category
whose find_field result is non-empty; on a miss returns the empty dict, an
empty field name and the caller-supplied default. -/
def find_category (mapping : MappingDoc) (original_channel : String)
    (dflt : String) : CategoryEntry × String × String :=
  match mapping with
  | [] => (emptyCategory, "", dflt)
  | (_, category_data) :: rest =>
    let r := find_field original_channel category_data
    if r.2 ≠ "" then (category_data, r.1, r.2)
    else find_category rest original_channel dflt

/-- The module-level MAPPING_CONFIG_TEMPLATE constant
(channel_mapping.py lines 23-42). -/
def MAPPING_CONFIG_TEMPLATE : MappingDoc :=
  [("uncategorized",
     { home := none, temp := none,
       field := [("channel",
                   [("MIT OpenCourseWare", "OCW - MIT"),
                    ("<CHANNEL NAME>", "<NEW CHANNEL NAME>")]),
                 ("<FIELD NAME>", [])] }),
   ("<CATEGORY>",
     { home := some "<TARGET LOCATION>", temp := some "<TEMP LOCATION>",
       field := [("<FIELD NAME>",
                   [("<ORIGINAL FIELD VALUE>", "<NEW FIELD VALUE>")])] })]

/-- Error values for the exceptions the plugin code can raise. -/
inductive PPError where
  | postProcessingError (msg : String)
  | valueError (msg : String)
  | notImplementedError (msg : String)
  | ioError (msg : String)
  | fileExistsError (path : String)
  deriving DecidableEq, Repr

/-- One postprocessor registration descriptor in params["postprocessors"]:
a dict with optional "key" and "when" entries. -/
structure PPEntry where
  key : Option String
  whenStage : Option String
  deriving DecidableEq, Repr

/-- The kind argument of change_path: "home" or "temp". -/
inductive DirType where
  | home
  | temp
  deriving DecidableEq, Repr

/-- The host downloader state the plugin reads and mutates: the default
output template string (outtmpl.default, absent modelled as ""), the
postprocessor registration list, the two path parameters, the set of
directories existing on the filesystem, and the cleanup postprocessors
scheduled through add_post_processor (keys list paired with the stage). -/
structure HostState where
  outtmplDefault : String
  postprocessors : List PPEntry
  pathsHome : String
  pathsTemp : String
  dirs : List String
  registeredCleanups : List (List String × String)
  deriving DecidableEq, Repr

/-- The plugin instance state: the loaded mapping document (never mutated
after load) and the accumulated list of injected mapped field names. -/
structure PluginState where
  mapping : MappingDoc
  mapped_fields : List String
  deriving DecidableEq, Repr

/-- Embeds is_mapping_used (lines 238-247): the literal placeholder
%(mapped_channel)s occurs in the default output template. -/
def is_mapping_used (hs : HostState) : Bool :=
  hasSub hs.outtmplDefault.data "%(mapped_channel)s".data

/-- Total model of directory creation: insert the directory when absent. -/
def makedirsT (dirs : List String) (d : String) : List String :=
  if dirs.contains d then dirs else d :: dirs

/-- Models os.makedirs: errors only when the directory exists and exist_ok
is false; the source always passes exist_ok=True. -/
def makedirs (dirs : List String) (d : String) (exist_ok : Bool) :
    Except PPError (List String) :=
  if dirs.contains d && !exist_ok then Except.error (PPError.fileExistsError d)
  else Except.ok (makedirsT dirs d)

/-- Read the directory string of a category for a kind: models
category.get(dir_type, ...) with the key absent as none. -/
def getDir (category : CategoryEntry) (dir_type : DirType) : Option String :=
  match dir_type with
  | DirType.home => category.home
  | DirType.temp => category.temp

/-- Overwrite the host path parameter of one kind:
models self._downloader.params["paths"][dir_type] = new_location. -/
def setPath (hs : HostState) (dir_type : DirType) (loc : String) : HostState :=
  match dir_type with
  | DirType.home => { hs with pathsHome := loc }
  | DirType.temp => { hs with pathsTemp := loc }

/-- Embeds change_path (lines 283-297). os.path.realpath is modelled by an
explicit pure canonicalization function passed as a parameter. An empty or
absent directory string is a no-op; otherwise the canonical directory is
created (exist_ok=True) and the host path parameter overwritten. -/
def change_path (realpath : String → String) (category : CategoryEntry)
    (dir_type : DirType) (hs : HostState) : Except PPError HostState :=
  let new_location := (getDir category dir_type).getD ""
  if new_location = "" then Except.ok hs
  else
    match makedirs hs.dirs (realpath new_location) true with
    | Except.error e => Except.error e
    | Except.ok dirs1 =>
      Except.ok (setPath { hs with dirs := dirs1 } dir_type (realpath new_location))

/-- Embeds mapping_before_download (lines 299-332): look the channel up with
the original name as default, apply the home and temp path rewrites of the
matched category, inject mapped_(field or channel) into the information
dictionary and record the injected key in mapped_fields. The to_screen
notice has no modelled effect. -/
def mapping_before_download (realpath : String → String) (ps : PluginState)
    (hs : HostState) (information : Info) :
    Except PPError ((List String × Info) × PluginState × HostState) :=
  let original_channel := getStr information "channel"
  let fcr := find_category ps.mapping original_channel original_channel
  let category := fcr.1
  let field := fcr.2.1
  let new_channel_name := fcr.2.2
  match change_path realpath category DirType.home hs with
  | Except.error e => Except.error e
  | Except.ok hs1 =>
    match change_path realpath category DirType.temp hs1 with
    | Except.error e => Except.error e
    | Except.ok hs2 =>
      let mapped_field_name := "mapped_" ++ (if field = "" then "channel" else field)
      let information1 := infoUpdate information mapped_field_name
        (MetaValue.str new_channel_name)
      Except.ok (([], information1),
        { ps with mapped_fields := ps.mapped_fields ++ [mapped_field_name] }, hs2)

/-- The message of the NotImplementedError raised by mapping_after_download
(lines 350-355), with the class name already substituted. -/
def mapping_after_download_message : String :=
  "Not implemented yet. Consider set ChannelMapping at \"pre_process\" instead (\"pre_process\", \"after_filter\" and \"video\" are tested working) e.g. --use-postprocessor \"ChannelMapping:when=pre_process\""

/-- Embeds mapping_after_download (lines 334-355): unconditionally raises
NotImplementedError. -/
def mapping_after_download : Except PPError (List String × Info) :=
  Except.error (PPError.notImplementedError mapping_after_download_message)

/-- The message of the PostProcessingError raised by main_processing on the
after-download path (lines 382-386). -/
def after_download_error_message : String :=
  "Not implemented yet. Consider set ChannelMapping at \"pre_process\" instead (\"after_filter\" and \"video\" are tested working) e.g. --use-postprocessor \"ChannelMapping:when=pre_process\""

/-- Embeds main_processing (lines 357-386): dispatch on the truthiness of
information.get("filepath", False); the after-download branch converts the
NotImplementedError into a PostProcessingError. -/
def main_processing (realpath : String → String) (ps : PluginState)
    (hs : HostState) (information : Info) :
    Except PPError ((List String × Info) × PluginState × HostState) :=
  if truthy (infoLookup information "filepath") = false then
    mapping_before_download realpath ps hs information
  else
    match mapping_after_download with
    | Except.ok r => Except.ok (r, ps, hs)
    | Except.error (PPError.notImplementedError _) =>
      Except.error (PPError.postProcessingError after_download_error_message)
    | Except.error e => Except.error e

/-- The allow-list of execution stages (line 414). -/
def supported_pp_positions : List String := ["pre_process", "after_filter", "video"]

/-- Locate the first registration descriptor whose key equals the plugin key
ChannelMapping: models the index scan of lines 401-409, returning the entry
pp_list[pp_position] directly (none when pp_position stays -1). -/
def locate_pp : List PPEntry → Option PPEntry
  | [] => none
  | pp :: rest => if pp.key == some "ChannelMapping" then some pp else locate_pp rest

/-- The declared execution stage: pp_exec_info.get("when", "post_process")
with the missing descriptor as the empty dict (line 409-410). -/
def pp_exec_position (pp_list : List PPEntry) : String :=
  match locate_pp pp_list with
  | some pp => pp.whenStage.getD "post_process"
  | none => "post_process"

/-- Join a list of strings with a separator: models str.join. -/
def strJoin (sep : String) : List String → String
  | [] => ""
  | [x] => x
  | x :: y :: rest => x ++ (sep ++ strJoin sep (y :: rest))

/-- The ValueError message of check_pp_position (lines 416-419). -/
def invalid_when_message (stage : String) : String :=
  "Invalid \"when\" value \"" ++
    (stage ++
      ("\" for post-processor \"ChannelMapping\" (should be: " ++
        (strJoin ", " supported_pp_positions ++ ")")))

/-- Embeds check_pp_position (lines 388-419): raises ValueError when the
declared stage is outside the allow-list. -/
def check_pp_position (pp_list : List PPEntry) : Except PPError Unit :=
  let pp_exec_pos := pp_exec_position pp_list
  if supported_pp_positions.contains pp_exec_pos then Except.ok ()
  else Except.error (PPError.valueError (invalid_when_message pp_exec_pos))

/-- The body of the try block of run (lines 438-440): position check then
main processing. -/
def run_dispatch (realpath : String → String) (ps : PluginState)
    (hs : HostState) (information : Info) :
    Except PPError ((List String × Info) × PluginState × HostState) :=
  match check_pp_position hs.postprocessors with
  | Except.error e => Except.error e
  | Except.ok _ => main_processing realpath ps hs information

/-- Schedule the one-shot cleanup postprocessor: models
add_post_processor(_post_cleanup(mapped_fields), when="after_video"),
with the Python list argument taken as a snapshot of its current value. -/
def schedule_cleanup (hs : HostState) (keys : List String) : HostState :=
  { hs with registeredCleanups := hs.registeredCleanups ++ [(keys, "after_video")] }

/-- Embeds run (lines 421-446): gate on is_mapping_used, then try the
dispatch, discarding any exception (the pre-try deletable and information
are returned instead), and in the finally block schedule the cleanup
postprocessor with the current mapped_fields. -/
def run (realpath : String → String) (ps : PluginState) (hs : HostState)
    (information : Info) : (List String × Info) × PluginState × HostState :=
  if is_mapping_used hs = false then (([], information), ps, hs)
  else
    match run_dispatch realpath ps hs information with
    | Except.ok ((deletable, information1), ps1, hs1) =>
      ((deletable, information1), ps1, schedule_cleanup hs1 ps1.mapped_fields)
    | Except.error _ =>
      (([], information), ps, schedule_cleanup hs ps.mapped_fields)

/-- Embeds the run method of the PostCleanupPP returned by _post_cleanup
(lines 450-480): pop every recorded key from the information dictionary. -/
def post_cleanup_run (keys : List String) (information : Info) :
    List String × Info :=
  ([], keys.foldl (fun inf k => infoPop inf k) information)

/-- The two recognized configuration formats (ConfigTypeEnum, lines 45-47). -/
inductive ConfigTypeEnum where
  | JSON
  | YAML
  deriving DecidableEq, Repr

/-- The filesystem as seen by the configuration loader: parsed documents
stored by path (serialization modelled as the identity on documents,
which is faithful for string-valued JSON and YAML round trips), the
existing directories, and the warnings reported so far. -/
structure FileState where
  files : List (String × MappingDoc)
  dirs : List String
  warnings : List String
  deriving DecidableEq, Repr

/-- First-match lookup of a stored file by path. -/
def lookupFile : List (String × MappingDoc) → String → Option MappingDoc
  | [], _ => none
  | (a, d) :: rest, p => if a = p then some d else lookupFile rest p

/-- Store a document at a path, replacing any existing file there. -/
def putFile : List (String × MappingDoc) → String → MappingDoc →
    List (String × MappingDoc)
  | [], p, d => [(p, d)]
  | (a, v) :: rest, p, d =>
    if a = p then (a, d) :: rest else (a, v) :: putFile rest p d

/-- The final path component: models os.path.basename for POSIX paths. -/
def baseName (path : String) : List Char :=
  (path.data.reverse.takeWhile (fun c => c ≠ '/')).reverse

/-- The leading directory part: models os.path.dirname for POSIX paths
(the root case is simplified to the common shapes the plugin sees). -/
def dirname (path : String) : String :=
  ⟨((path.data.reverse.dropWhile (fun c => c ≠ '/')).drop 1).reverse⟩

/-- The extension part of os.path.splitext(path)[1]: the suffix of the
final path component from its last dot, empty when the component has no
dot or only leading dots before it. -/
def splitextExt (path : String) : String :=
  let rev := (baseName path).reverse
  let pre := rev.takeWhile (fun c => c ≠ '.')
  if pre.length = rev.length then ""
  else
    let before := rev.drop (pre.length + 1)
    if before.any (fun c => c ≠ '.') then ⟨'.' :: pre.reverse⟩ else ""

/-- Embeds check_config_type (lines 202-220): extension-based format
selection, with YAML recognized only when the yaml module is available. -/
def check_config_type (yamlAvail : Bool) (config_path : String) :
    Except PPError ConfigTypeEnum :=
  let ext : String := ⟨(splitextExt config_path).data.map Char.toLower⟩
  if ext = ".json" then Except.ok ConfigTypeEnum.JSON
  else if (ext = ".yaml" ∨ ext = ".yml") ∧ yamlAvail then Except.ok ConfigTypeEnum.YAML
  else Except.error (PPError.valueError ("Unsupported file type: " ++ ext))

/-- The report_warning message of write_mapping_template (line 198). -/
def template_created_warning (config_path : String) : String :=
  "Mapping file not found. Created a template mapping file at: " ++ config_path

/-- Embeds write_mapping_template (lines 185-200): create the containing
directory (exist_ok=True), then save MAPPING_CONFIG_TEMPLATE in the format
given by the extension and report a warning; any failure inside the try is
wrapped into an IOError naming the path. -/
def write_mapping_template (yamlAvail : Bool) (fs : FileState)
    (config_path : String) : Except PPError FileState :=
  match makedirs fs.dirs (dirname config_path) true with
  | Except.error e => Except.error e
  | Except.ok dirs1 =>
    match check_config_type yamlAvail config_path with
    | Except.ok _ =>
      Except.ok { files := putFile fs.files config_path MAPPING_CONFIG_TEMPLATE,
                  dirs := dirs1,
                  warnings := fs.warnings ++ [template_created_warning config_path] }
    | Except.error _ =>
      Except.error (PPError.ioError ("Can't write mapping file: " ++ config_path))

/-- Embeds _load_file (lines 163-183) for an already-validated format:
parsing is the identity on the stored document. -/
def load_file (files : List (String × MappingDoc)) (config_path : String) :
    Except PPError MappingDoc :=
  match lookupFile files config_path with
  | some d => Except.ok d
  | none => Except.error (PPError.ioError ("No such file: " ++ config_path))

/-- Embeds load_mapping (lines 222-236): bootstrap the template when the
path does not exist, then load the file in the format of its extension. -/
def load_mapping (yamlAvail : Bool) (fs : FileState) (config_path : String) :
    Except PPError (MappingDoc × FileState) :=
  let step1 : Except PPError FileState :=
    if (lookupFile fs.files config_path).isSome then Except.ok fs
    else write_mapping_template yamlAvail fs config_path
  match step1 with
  | Except.error e => Except.error e
  | Except.ok fs1 =>
    match check_config_type yamlAvail config_path with
    | Except.error e => Except.error e
    | Except.ok _ =>
      match load_file fs1.files config_path with
      | Except.error e => Except.error e
      | Except.ok doc => Except.ok (doc, fs1)

/-
  Helper lemmas about the lookup engine.
-/

theorem findFieldGo_miss : ∀ (fields : List (String × List (String × String)))
    (v : String), (∀ p ∈ fields, lookupD p.2 v = "") →
    findFieldGo v fields = ("", "")
  | [], _, _ => rfl
  | (f, m) :: rest, v, h => by
    have hm : lookupD m v = "" := h (f, m) (List.mem_cons_self _ _)
    have ih := findFieldGo_miss rest v (fun p hp => h p (List.mem_cons_of_mem _ hp))
    simp [findFieldGo, hm, ih]

theorem find_field_miss (v : String) (c : CategoryEntry)
    (h : ∀ p ∈ c.field, lookupD p.2 v = "") : find_field v c = ("", "") :=
  findFieldGo_miss c.field v h

theorem find_category_miss : ∀ (mapping : MappingDoc) (v d : String),
    (∀ e ∈ mapping, ∀ p ∈ e.2.field, lookupD p.2 v = "") →
    find_category mapping v d = (emptyCategory, "", d)
  | [], _, _, _ => rfl
  | (n, c) :: rest, v, d, h => by
    have hc : find_field v c = ("", "") :=
      find_field_miss v c (h (n, c) (List.mem_cons_self _ _))
    have ih := find_category_miss rest v d (fun e he => h e (List.mem_cons_of_mem _ he))
    simp [find_category, hc, ih]

theorem findFieldGo_first : ∀ (fpre : List (String × List (String × String)))
    (v f : String) (m : List (String × String))
    (fpost : List (String × List (String × String))),
    (∀ p ∈ fpre, lookupD p.2 v = "") → lookupD m v ≠ "" →
    findFieldGo v (fpre ++ (f, m) :: fpost) = (f, lookupD m v)
  | [], v, f, m, fpost, _, hm => by simp [findFieldGo, hm]
  | (g, w) :: rest, v, f, m, fpost, hpre, hm => by
    have hw : lookupD w v = "" := hpre (g, w) (List.mem_cons_self _ _)
    have ih := findFieldGo_first rest v f m fpost
      (fun p hp => hpre p (List.mem_cons_of_mem _ hp)) hm
    simp [findFieldGo, hw, ih]

theorem find_category_first : ∀ (cpre : MappingDoc) (v d n : String)
    (c : CategoryEntry) (cpost : MappingDoc),
    (∀ e ∈ cpre, (find_field v e.2).2 = "") → (find_field v c).2 ≠ "" →
    find_category (cpre ++ (n, c) :: cpost) v d =
      (c, (find_field v c).1, (find_field v c).2)
  | [], v, d, n, c, cpost, _, hc => by simp [find_category, hc]
  | (n0, c0) :: rest, v, d, n, c, cpost, hpre, hc => by
    have h0 : (find_field v c0).2 = "" := hpre (n0, c0) (List.mem_cons_self _ _)
    have ih := find_category_first rest v d n c cpost
      (fun e he => hpre e (List.mem_cons_of_mem _ he)) hc
    simp [find_category, h0, ih]

/-
  Helper lemmas about substring containment.
-/

theorem leadsWith_append : ∀ (p t : List Char), leadsWith (p ++ t) p = true
  | [], t => by cases t <;> rfl
  | a :: p, t => by simp [leadsWith, leadsWith_append p t]

theorem hasSub_nil (s : List Char) : hasSub s [] = true := by
  cases s with
  | nil => rfl
  | cons a t => simp [hasSub, leadsWith]

theorem hasSub_append_left (p t : List Char) : hasSub (p ++ t) p = true := by
  cases p with
  | nil => exact hasSub_nil t
  | cons b q =>
    have h1 := leadsWith_append (b :: q) t
    simp only [List.cons_append] at h1
    simp [hasSub, h1]

theorem hasSub_extend (a : List Char) {s p : List Char} (h : hasSub s p = true) :
    hasSub (a ++ s) p = true := by
  induction a with
  | nil => exact h
  | cons x xs ih => simp [hasSub, ih]

theorem strJoin_supported :
    strJoin ", " supported_pp_positions = "pre_process, after_filter, video" := rfl

theorem invalid_when_message_names_stage (stage : String) :
    hasSub (invalid_when_message stage).data stage.data = true := by
  unfold invalid_when_message
  rw [String.data_append, String.data_append]
  exact hasSub_extend _ (hasSub_append_left _ _)

theorem invalid_when_message_names_allowed (stage : String) :
    hasSub (invalid_when_message stage).data
      "pre_process, after_filter, video".data = true := by
  unfold invalid_when_message
  rw [strJoin_supported, String.data_append, String.data_append,
    String.data_append, String.data_append]
  exact hasSub_extend _ (hasSub_extend _ (hasSub_extend _ (hasSub_append_left _ _)))

/-
  Helper lemmas about the path rewriter and the run pipeline state.
-/

theorem makedirs_true (dirs : List String) (d : String) :
    makedirs dirs d true = Except.ok (makedirsT dirs d) := by
  simp [makedirs]

theorem makedirsT_idem (dirs : List String) (d : String) :
    makedirsT (makedirsT dirs d) d = makedirsT dirs d := by
  unfold makedirsT
  by_cases h : dirs.contains d = true
  · rw [if_pos h, if_pos h]
  · rw [if_neg h]
    have hc : (d :: dirs).contains d = true := by simp
    rw [if_pos hc]

theorem setPath_registeredCleanups (hs : HostState) (dt : DirType) (l : String) :
    (setPath hs dt l).registeredCleanups = hs.registeredCleanups := by
  cases dt <;> rfl

theorem setPath_dirs (hs : HostState) (dt : DirType) (l : String) :
    (setPath hs dt l).dirs = hs.dirs := by
  cases dt <;> rfl

theorem setPath_setPath (hs : HostState) (dt : DirType) (l : String) :
    setPath (setPath hs dt l) dt l = setPath hs dt l := by
  cases dt <;> rfl

theorem change_path_branch (realpath : String → String) (c : CategoryEntry)
    (dt : DirType) (hs : HostState) (hnl : ¬((getDir c dt).getD "" = "")) :
    change_path realpath c dt hs =
      Except.ok (setPath
        { hs with dirs := makedirsT hs.dirs (realpath ((getDir c dt).getD "")) }
        dt (realpath ((getDir c dt).getD ""))) := by
  simp [change_path, hnl, makedirs_true]

theorem change_path_ok_cleanups (realpath : String → String) (c : CategoryEntry)
    (dt : DirType) (hs hs1 : HostState)
    (h : change_path realpath c dt hs = Except.ok hs1) :
    hs1.registeredCleanups = hs.registeredCleanups := by
  unfold change_path at h
  by_cases hnl : (getDir c dt).getD "" = ""
  · simp [hnl] at h
    rw [← h]
  · simp [hnl, makedirs_true] at h
    rw [← h, setPath_registeredCleanups]

theorem mapping_before_download_ok_cleanups (realpath : String → String)
    (ps : PluginState) (hs : HostState) (info : Info)
    (r : (List String × Info) × PluginState × HostState)
    (h : mapping_before_download realpath ps hs info = Except.ok r) :
    r.2.2.registeredCleanups = hs.registeredCleanups := by
  unfold mapping_before_download at h
  dsimp only at h
  split at h
  next e heq => simp at h
  next hs1 heq1 =>
    split at h
    next e heq => simp at h
    next hs2 heq2 =>
      simp only [Except.ok.injEq] at h
      rw [← h]
      show hs2.registeredCleanups = hs.registeredCleanups
      rw [change_path_ok_cleanups realpath _ DirType.temp hs1 hs2 heq2,
        change_path_ok_cleanups realpath _ DirType.home hs hs1 heq1]

theorem main_processing_ok_cleanups (realpath : String → String)
    (ps : PluginState) (hs : HostState) (info : Info)
    (r : (List String × Info) × PluginState × HostState)
    (h : main_processing realpath ps hs info = Except.ok r) :
    r.2.2.registeredCleanups = hs.registeredCleanups := by
  unfold main_processing at h
  by_cases hf : truthy (infoLookup info "filepath") = false
  · rw [if_pos hf] at h
    exact mapping_before_download_ok_cleanups realpath ps hs info r h
  · rw [if_neg hf] at h
    simp [mapping_after_download] at h

theorem run_dispatch_ok_cleanups (realpath : String → String)
    (ps : PluginState) (hs : HostState) (info : Info)
    (r : (List String × Info) × PluginState × HostState)
    (h : run_dispatch realpath ps hs info = Except.ok r) :
    r.2.2.registeredCleanups = hs.registeredCleanups := by
  unfold run_dispatch at h
  cases hcp : check_pp_position hs.postprocessors with
  | error e => rw [hcp] at h; exact absurd h (by simp)
  | ok u => rw [hcp] at h; exact main_processing_ok_cleanups realpath ps hs info r h

/-
  Helper lemmas about the cleanup postprocessor.
-/

theorem infoPop_sublist : ∀ (info : Info) (k : String),
    List.Sublist (infoPop info k) info
  | [], _ => List.Sublist.refl []
  | (a, v) :: rest, k => by
    by_cases h : a = k
    · simp only [infoPop, if_pos h]
      exact List.sublist_cons_self (a, v) rest
    · simp only [infoPop, if_neg h]
      exact List.Sublist.cons₂ (a, v) (infoPop_sublist rest k)

theorem infoPop_keys_nodup (info : Info) (k : String)
    (h : (info.map Prod.fst).Nodup) : ((infoPop info k).map Prod.fst).Nodup :=
  List.Nodup.sublist (List.Sublist.map Prod.fst (infoPop_sublist info k)) h

theorem infoPop_eq_filter (k : String) : ∀ (info : Info),
    (info.map Prod.fst).Nodup →
    infoPop info k = info.filter (fun p => !(p.1 == k))
  | [], _ => rfl
  | (a, v) :: rest, h => by
    rw [List.map_cons, List.nodup_cons] at h
    by_cases hak : a = k
    · subst hak
      simp only [infoPop, if_pos rfl, List.filter_cons, beq_self_eq_true,
        Bool.not_true, Bool.false_eq_true, if_false]
      -- no entry of rest has key a, so the filter keeps all of rest
      have : ∀ p ∈ rest, (!(p.1 == a)) = true := by
        intro p hp
        have : p.1 ∈ rest.map Prod.fst := List.mem_map_of_mem Prod.fst hp
        simp only [Bool.not_eq_true', beq_eq_false_iff_ne, ne_eq]
        intro hpk
        exact h.1 (hpk ▸ this)
      exact (List.filter_eq_self.mpr this).symm
    · simp only [infoPop, if_neg hak, List.filter_cons]
      have hbeq : (!(a == k)) = true := by
        simp only [Bool.not_eq_true', beq_eq_false_iff_ne, ne_eq]
        exact hak
      rw [hbeq]
      simp only [if_true]
      rw [infoPop_eq_filter k rest h.2]

theorem filter_key_merge (k : String) (ks : List String) : ∀ (info : Info),
    (info.filter (fun p => !(p.1 == k))).filter (fun p => !(ks.contains p.1)) =
    info.filter (fun p => !((k :: ks).contains p.1))
  | [] => rfl
  | (a, v) :: rest => by
    have hc : (k :: ks).contains a = (a == k || ks.contains a) := by
      cases h : a == k <;> simp [List.contains, List.elem, h]
    simp only [List.filter_cons, hc]
    cases h1 : a == k with
    | true =>
      simp only [Bool.not_true, Bool.false_eq_true, if_false, Bool.true_or]
      exact filter_key_merge k ks rest
    | false =>
      simp only [Bool.not_false, if_true, List.filter_cons, Bool.false_or]
      cases h2 : ks.contains a with
      | true =>
        simp only [Bool.not_true, Bool.false_eq_true, if_false]
        exact filter_key_merge k ks rest
      | false =>
        simp only [Bool.not_false, if_true]
        rw [filter_key_merge k ks rest]

theorem cleanup_foldl_filter : ∀ (keys : List String) (info : Info),
    (info.map Prod.fst).Nodup →
    keys.foldl (fun inf k => infoPop inf k) info =
      info.filter (fun p => !(keys.contains p.1))
  | [], info, _ => by
    simp [List.contains, List.elem]
  | k :: ks, info, h => by
    have step : (k :: ks).foldl (fun inf k => infoPop inf k) info =
        ks.foldl (fun inf k => infoPop inf k) (infoPop info k) := rfl
    rw [step, cleanup_foldl_filter ks (infoPop info k) (infoPop_keys_nodup info k h),
      infoPop_eq_filter k info h, filter_key_merge k ks info]

/-
  Helper lemma about the file store.
-/

theorem putFile_lookup : ∀ (files : List (String × MappingDoc)) (p : String)
    (d : MappingDoc), lookupFile (putFile files p d) p = some d
  | [], p, d => by simp [putFile, lookupFile]
  | (a, v) :: rest, p, d => by
    by_cases h : a = p
    · simp [putFile, lookupFile, h]
    · simp only [putFile, if_neg h, lookupFile]
      exact putFile_lookup rest p d

/-
  Claim theorems.
-/

/-- C1: for every mapping document and every value v that is not a key with
a non-empty mapped value in any category field mappings, find_category with
v as both lookup value and default returns the empty category entry, an
empty field name and v itself, so unknown channels pass through unchanged;
find_category is a total function, so the lookup cannot raise on a miss. -/
theorem find_category_passthrough (mapping : MappingDoc) (v : String)
    (h : ∀ e ∈ mapping, ∀ p ∈ e.2.field, lookupD p.2 v = "") :
    find_category mapping v v = (emptyCategory, "", v) :=
  find_category_miss mapping v v h

theorem find_category_passthrough_witness :
    find_category MAPPING_CONFIG_TEMPLATE "Veritasium" "Veritasium" =
      (emptyCategory, "", "Veritasium") :=
  find_category_passthrough MAPPING_CONFIG_TEMPLATE "Veritasium" (by decide)

/-- C2: find_field iterates field entries in declaration order and returns
the first entry whose inner mapping sends the value to a non-empty result,
and find_category iterates categories in declaration order and returns the
first category (with its entry and field name) whose find_field result is
non-empty; in particular a value mapped differently in two categories gets
the first-declared mapping, deterministically. -/
theorem find_category_first_match_order :
    (∀ (v : String) (ho tp : Option String)
      (fpre : List (String × List (String × String))) (f : String)
      (m : List (String × String))
      (fpost : List (String × List (String × String))),
      (∀ p ∈ fpre, lookupD p.2 v = "") → lookupD m v ≠ "" →
      find_field v ⟨ho, tp, fpre ++ (f, m) :: fpost⟩ = (f, lookupD m v))
    ∧ (∀ (v d n : String) (cpre : MappingDoc) (c : CategoryEntry)
      (cpost : MappingDoc),
      (∀ e ∈ cpre, (find_field v e.2).2 = "") → (find_field v c).2 ≠ "" →
      find_category (cpre ++ (n, c) :: cpost) v d =
        (c, (find_field v c).1, (find_field v c).2)) :=
  ⟨fun v _ _ fpre f m fpost hpre hm => findFieldGo_first fpre v f m fpost hpre hm,
   fun v d n cpre c cpost hpre hc => find_category_first cpre v d n c cpost hpre hc⟩

theorem find_category_first_match_order_witness :
    find_field "A" ⟨none, none,
        [("title", []), ("channel", [("A", "B")]), ("x", [("A", "C")])]⟩ =
      ("channel", "B")
    ∧ find_category
        [("c0", ⟨none, none, [("channel", [("Z", "W")])]⟩),
         ("c1", ⟨none, none, [("channel", [("A", "B1")])]⟩),
         ("c2", ⟨none, none, [("channel", [("A", "B2")])]⟩)] "A" "A" =
      (⟨none, none, [("channel", [("A", "B1")])]⟩, "channel", "B1") :=
  ⟨find_category_first_match_order.1 "A" none none [("title", [])] "channel"
      [("A", "B")] [("x", [("A", "C")])] (by decide) (by decide),
   find_category_first_match_order.2 "A" "A" "c1"
      [("c0", ⟨none, none, [("channel", [("Z", "W")])]⟩)]
      ⟨none, none, [("channel", [("A", "B1")])]⟩
      [("c2", ⟨none, none, [("channel", [("A", "B2")])]⟩)] (by decide) (by decide)⟩

/-- C3: when the default output template does not contain the placeholder
token %(mapped_channel)s, run returns the input metadata record unchanged
with an empty deletion list, and the plugin and host states are untouched:
no lookup, no path mutation, no field injection, no cleanup scheduling. -/
theorem run_noop_without_placeholder (realpath : String → String)
    (ps : PluginState) (hs : HostState) (info : Info)
    (h : is_mapping_used hs = false) :
    run realpath ps hs info = (([], info), ps, hs) := by
  simp [run, h]

theorem run_noop_without_placeholder_witness :
    run id ⟨[], []⟩ ⟨"%(title)s.%(ext)s", [], "", "", [], []⟩
      [("channel", MetaValue.str "SomeChannel")] =
      (([], [("channel", MetaValue.str "SomeChannel")]), ⟨[], []⟩,
        ⟨"%(title)s.%(ext)s", [], "", "", [], []⟩) :=
  run_noop_without_placeholder id ⟨[], []⟩
    ⟨"%(title)s.%(ext)s", [], "", "", [], []⟩
    [("channel", MetaValue.str "SomeChannel")] (by decide)

/-- C5: executing the scheduled cleanup step removes exactly the recorded
keys from the metadata record (with the dict invariant that keys are
unique): every entry whose key is in the cleanup list is removed, every
other entry keeps its value and position, and keys of the cleanup list
absent from the record are skipped without error. -/
theorem post_cleanup_removes_exactly_injected_keys (keys : List String)
    (info : Info) (h : (info.map Prod.fst).Nodup) :
    post_cleanup_run keys info =
      ([], info.filter (fun p => !(keys.contains p.1))) := by
  unfold post_cleanup_run
  rw [cleanup_foldl_filter keys info h]

theorem post_cleanup_removes_exactly_injected_keys_witness :
    post_cleanup_run ["mapped_channel"]
      [("channel", MetaValue.str "X"), ("mapped_channel", MetaValue.str "Y"),
       ("other", MetaValue.int 1)] =
      ([], [("channel", MetaValue.str "X"), ("other", MetaValue.int 1)]) :=
  post_cleanup_removes_exactly_injected_keys ["mapped_channel"]
    [("channel", MetaValue.str "X"), ("mapped_channel", MetaValue.str "Y"),
     ("other", MetaValue.int 1)] (by decide)

/-- C6: when the declared execution stage of the plugin (the when entry of
the registration descriptor matching its key, defaulting to post_process
when unregistered) is outside the allow-list, check_pp_position raises a
ValueError whose message names the invalid stage and the allowed set; when
the stage is in the allow-list it returns without error. -/
theorem check_pp_position_validates_stage (pp_list : List PPEntry) :
    (supported_pp_positions.contains (pp_exec_position pp_list) = false →
      check_pp_position pp_list =
        Except.error (PPError.valueError (invalid_when_message (pp_exec_position pp_list)))
      ∧ hasSub (invalid_when_message (pp_exec_position pp_list)).data
          (pp_exec_position pp_list).data = true
      ∧ hasSub (invalid_when_message (pp_exec_position pp_list)).data
          "pre_process, after_filter, video".data = true)
    ∧ (supported_pp_positions.contains (pp_exec_position pp_list) = true →
      check_pp_position pp_list = Except.ok ()) := by
  constructor
  · intro h
    refine ⟨?_, invalid_when_message_names_stage _, invalid_when_message_names_allowed _⟩
    simp only [check_pp_position, h, Bool.false_eq_true, if_false]
  · intro h
    simp only [check_pp_position, h, if_true]

theorem check_pp_position_validates_stage_witness :
    check_pp_position [] =
      Except.error (PPError.valueError (invalid_when_message "post_process"))
    ∧ check_pp_position [⟨some "ChannelMapping", some "video"⟩] = Except.ok () :=
  ⟨((check_pp_position_validates_stage []).1 (by decide)).1,
   (check_pp_position_validates_stage [⟨some "ChannelMapping", some "video"⟩]).2
     (by decide)⟩

/-- C4 counterexample: an invocation of run on a host whose default output
template lacks the placeholder returns at the gate, before the try/finally
block, so no cleanup step is scheduled on that invocation; this refutes the
claim that the cleanup step is unconditionally scheduled on every
invocation of run. -/
theorem run_gate_miss_schedules_no_cleanup :
    run id ⟨[], []⟩ ⟨"%(uploader)s", [], "", "", [], []⟩
        [("channel", MetaValue.str "D")] =
      (([], [("channel", MetaValue.str "D")]), ⟨[], []⟩,
        ⟨"%(uploader)s", [], "", "", [], []⟩)
    ∧ (run id ⟨[], []⟩ ⟨"%(uploader)s", [], "", "", [], []⟩
        [("channel", MetaValue.str "D")]).2.2.registeredCleanups = [] :=
  ⟨rfl, rfl⟩

/-- C4 amended: whenever the gate passes (the output template references
the placeholder), every error raised by the dispatch phase (position check
or main processing) is caught and discarded so run still returns a result
carrying the pre-try deletable list and information, and exactly one
cleanup step is scheduled on the host regardless of the dispatch outcome;
when the gate fails, run returns early without scheduling cleanup. -/
theorem run_swallows_dispatch_errors_and_schedules_cleanup
    (realpath : String → String) (ps : PluginState) (hs : HostState)
    (info : Info) (h : is_mapping_used hs = true) :
    (run realpath ps hs info).2.2.registeredCleanups.length =
      hs.registeredCleanups.length + 1
    ∧ (∀ e, run_dispatch realpath ps hs info = Except.error e →
        run realpath ps hs info =
          (([], info), ps, schedule_cleanup hs ps.mapped_fields)) := by
  have hgate : ¬ (is_mapping_used hs = false) := by rw [h]; simp
  cases hd : run_dispatch realpath ps hs info with
  | error e =>
    constructor
    · simp [run, hgate, hd, schedule_cleanup]
    · intro e2 _
      simp [run, hgate, hd]
  | ok r =>
    obtain ⟨⟨d, i⟩, ps1, hs1⟩ := r
    have hcl := run_dispatch_ok_cleanups realpath ps hs info ((d, i), ps1, hs1) hd
    dsimp only at hcl
    constructor
    · simp [run, hgate, hd, schedule_cleanup, hcl]
    · intro e2 he2
      exact absurd he2 (by simp)

theorem run_swallows_dispatch_errors_and_schedules_cleanup_witness :
    (run id ⟨[], []⟩ ⟨"%(mapped_channel)s", [], "", "", [], []⟩
        [("channel", MetaValue.str "E")]).2.2.registeredCleanups.length = 0 + 1 :=
  (run_swallows_dispatch_errors_and_schedules_cleanup id ⟨[], []⟩
    ⟨"%(mapped_channel)s", [], "", "", [], []⟩
    [("channel", MetaValue.str "E")] (by decide)).1

/-- C7 counterexample: a metadata record in which the filepath key is
present but bound to the empty string is falsy under
information.get of filepath with default False, so main_processing takes
the before-download path, succeeds and injects mapped_channel (mutating the
record) instead of raising the unimplemented-path error. -/
theorem main_processing_empty_filepath_no_error :
    main_processing id ⟨[], []⟩ ⟨"%(mapped_channel)s", [], "", "", [], []⟩
        [("filepath", MetaValue.str "")] =
      Except.ok (([], [("filepath", MetaValue.str ""),
          ("mapped_channel", MetaValue.str "")]),
        ⟨[], ["mapped_channel"]⟩,
        ⟨"%(mapped_channel)s", [], "", "", [], []⟩) := rfl

/-- C7 amended: for every metadata record whose filepath value is truthy
(a non-empty string, the post-transfer shape), main_processing always
raises the unimplemented-path PostProcessingError, whose message instructs
the operator to register the plugin at an earlier stage (when=pre_process);
the error return carries no mutated record or state. -/
theorem main_processing_post_transfer_raises (realpath : String → String)
    (ps : PluginState) (hs : HostState) (info : Info)
    (h : truthy (infoLookup info "filepath") = true) :
    main_processing realpath ps hs info =
      Except.error (PPError.postProcessingError after_download_error_message)
    ∧ hasSub after_download_error_message.data "when=pre_process".data = true := by
  refine ⟨?_, by decide⟩
  simp [main_processing, h, mapping_after_download]

theorem main_processing_post_transfer_raises_witness :
    main_processing id ⟨[], []⟩ ⟨"", [], "", "", [], []⟩
        [("filepath", MetaValue.str "/downloads/a.mp4")] =
      Except.error (PPError.postProcessingError after_download_error_message) :=
  (main_processing_post_transfer_raises id ⟨[], []⟩ ⟨"", [], "", "", [], []⟩
    [("filepath", MetaValue.str "/downloads/a.mp4")] (by decide)).1

/-- C8: change_path never errors (directory creation passes exist_ok, so an
already existing directory is fine), applying the same category twice
yields the same final host state as applying it once, and a category with
no directory string of the requested kind is a no-op on the state. -/
theorem change_path_idempotent_total (realpath : String → String)
    (c : CategoryEntry) (dt : DirType) (hs : HostState) :
    (change_path realpath c dt hs).isOk = true
    ∧ (∀ hs1, change_path realpath c dt hs = Except.ok hs1 →
        change_path realpath c dt hs1 = Except.ok hs1)
    ∧ ((getDir c dt).getD "" = "" → change_path realpath c dt hs = Except.ok hs) := by
  by_cases hnl : (getDir c dt).getD "" = ""
  · refine ⟨?_, ?_, fun _ => ?_⟩
    · simp [change_path, hnl, Except.isOk, Except.toBool]
    · intro hs1 h1
      simp [change_path, hnl]
    · simp [change_path, hnl]
  · refine ⟨?_, ?_, fun hx => absurd hx hnl⟩
    · simp [change_path, hnl, makedirs_true, Except.isOk, Except.toBool]
    · intro hs1 h1
      rw [change_path_branch realpath c dt hs hnl] at h1
      have h2 := Except.ok.inj h1
      subst h2
      rw [change_path_branch realpath c dt _ hnl]
      cases dt <;> simp [setPath, makedirsT_idem, getDir]

theorem change_path_idempotent_total_witness :
    change_path id ⟨some "/data/vids", none, []⟩ DirType.home
        ⟨"", [], "/data/vids", "", ["/data/vids"], []⟩ =
      Except.ok ⟨"", [], "/data/vids", "", ["/data/vids"], []⟩
    ∧ change_path id ⟨none, some "/tmp/stage", []⟩ DirType.home
        ⟨"", [], "", "", [], []⟩ = Except.ok ⟨"", [], "", "", [], []⟩ :=
  ⟨(change_path_idempotent_total id ⟨some "/data/vids", none, []⟩ DirType.home
      ⟨"", [], "", "", [], []⟩).2.1
      ⟨"", [], "/data/vids", "", ["/data/vids"], []⟩ (by rfl),
   (change_path_idempotent_total id ⟨none, some "/tmp/stage", []⟩ DirType.home
      ⟨"", [], "", "", [], []⟩).2.2 (by rfl)⟩

/-- C9: loading a configuration path with a recognized extension at which
no file exists first writes the fixed template document to that path
(creating the containing directory and emitting the template-created
warning) and then loads it, and the loaded in-memory document equals the
fixed template. -/
theorem load_mapping_template_roundtrip (yamlAvail : Bool) (fs : FileState)
    (config_path : String) (fmt : ConfigTypeEnum)
    (h1 : lookupFile fs.files config_path = none)
    (h2 : check_config_type yamlAvail config_path = Except.ok fmt) :
    load_mapping yamlAvail fs config_path =
      Except.ok (MAPPING_CONFIG_TEMPLATE,
        { files := putFile fs.files config_path MAPPING_CONFIG_TEMPLATE,
          dirs := makedirsT fs.dirs (dirname config_path),
          warnings := fs.warnings ++ [template_created_warning config_path] }) := by
  unfold load_mapping write_mapping_template
  rw [h1]
  simp only [Option.isSome_none, Bool.false_eq_true, if_false, makedirs_true, h2]
  simp [load_file, putFile_lookup]

theorem load_mapping_template_roundtrip_witness :
    load_mapping false ⟨[], [], []⟩ "/etc/yt/map.json" =
      Except.ok (MAPPING_CONFIG_TEMPLATE,
        ⟨[("/etc/yt/map.json", MAPPING_CONFIG_TEMPLATE)], ["/etc/yt"],
         ["Mapping file not found. Created a template mapping file at: /etc/yt/map.json"]⟩) :=
  load_mapping_template_roundtrip false ⟨[], [], []⟩ "/etc/yt/map.json"
    ConfigTypeEnum.JSON (by rfl) (by rfl)

/-- C10: for every metadata record without a filepath key, dispatch reaches
mapping_before_download, which injects a mapped field even when the lookup
misses everywhere: the injected key is exactly mapped_channel, its value is
the original channel name (the default), and mapped_channel is appended to
the instance cleanup list, so a pass-through lookup still mutates the
record and grows the cleanup list. -/
theorem mapping_before_download_always_injects (realpath : String → String)
    (ps : PluginState) (hs : HostState) (info : Info)
    (h1 : infoLookup info "filepath" = none)
    (h2 : ∀ e ∈ ps.mapping, ∀ p ∈ e.2.field,
      lookupD p.2 (getStr info "channel") = "") :
    main_processing realpath ps hs info =
      Except.ok
        (([], infoUpdate info "mapped_channel"
            (MetaValue.str (getStr info "channel"))),
         { ps with mapped_fields := ps.mapped_fields ++ ["mapped_channel"] }, hs) := by
  have hf : truthy (infoLookup info "filepath") = false := by rw [h1]; rfl
  have hm := find_category_miss ps.mapping (getStr info "channel")
    (getStr info "channel") h2
  unfold main_processing
  rw [if_pos hf]
  unfold mapping_before_download
  dsimp only
  rw [hm]
  rfl

theorem mapping_before_download_always_injects_witness :
    main_processing id ⟨[("cat", ⟨none, none, [("channel", [("A", "B")])]⟩)], []⟩
        ⟨"%(mapped_channel)s", [], "", "", [], []⟩
        [("channel", MetaValue.str "Z")] =
      Except.ok (([], [("channel", MetaValue.str "Z"),
          ("mapped_channel", MetaValue.str "Z")]),
        ⟨[("cat", ⟨none, none, [("channel", [("A", "B")])]⟩)], ["mapped_channel"]⟩,
        ⟨"%(mapped_channel)s", [], "", "", [], []⟩) :=
  mapping_before_download_always_injects id
    ⟨[("cat", ⟨none, none, [("channel", [("A", "B")])]⟩)], []⟩
    ⟨"%(mapped_channel)s", [], "", "", [], []⟩
    [("channel", MetaValue.str "Z")] (by rfl) (by decide)

end ChannelMapping
